import Mathlib

/- Verification development for the simpleode adaptive implicit ODE
   integration engine (core/ode.py).  The Python module is shallowly
   embedded: machine floats are idealised as exact rationals (or reals
   where a fractional power is computed), numpy vectors as lists, and
   each Python exception as an explicit error value.  Each definition
   below names the source function it embeds. -/

-- ============================================================
-- Parameters (core/ode.py lines 25-30).  The float constants 3.0,
-- 0.75, 0.5, 1e-8 and 1e8 are exact, so the rational idealisation is
-- faithful.  They are stated over any division ring so that the same
-- definitions serve the rational (loop) and real (scaling-law) parts.
-- ============================================================

def MAX_ALLOWED_DT_SCALING_FACTOR (α : Type) [DivisionRing α] : α := 3

def MIN_ALLOWED_DT_SCALING_FACTOR (α : Type) [DivisionRing α] : α := 3 / 4

def TIMESTEP_FAILURE_DT_SCALING_FACTOR (α : Type) [DivisionRing α] : α := 1 / 2

def MIN_ALLOWED_TIMESTEP (α : Type) [DivisionRing α] : α := 1 / 100000000

def MAX_ALLOWED_TIMESTEP (α : Type) [DivisionRing α] : α := 100000000

/-- Outcome of `scale_timestep` (core/ode.py lines 875-908): a normal
return value, a raised `FailedTimestepError` carrying the suggested
`new_dt` (caught by the integration loop, which adopts `new_dt`), or a
raised `ConvergenceFailure` (step-size underflow, fatal). -/
inductive ScaleResult (α : Type) where
  | ok (dt : α)
  | rejected (new_dt : α)
  | underflow
deriving DecidableEq

/-- Embeds `scale_timestep` (core/ode.py lines 875-908).  In the source
the scaling factor is produced by calling the `scaling_function`
argument; here the call has already been made and its value is passed
as `scaling_factor`.  The source tests the identity
`scaling_function is failed_timestep_scaling`; that test is passed as
the boolean `is_failed_scaling`.  Note line 884 of the source computes
`new_dt = scaling_factor * dt` BEFORE the `elif` branch that rebinds
`scaling_factor` to `MAX_ALLOWED_DT_SCALING_FACTOR`; that rebinding is
dead (the rebound variable is never read again), so it does not appear
below: `new_dt` keeps the unclamped factor. -/
def scale_timestep {α : Type} [LinearOrderedField α]
    (dt scaling_factor : α) (is_failed_scaling : Bool) : ScaleResult α :=
  let new_dt := scaling_factor * dt
  if scaling_factor < MIN_ALLOWED_DT_SCALING_FACTOR α ∧ is_failed_scaling = false then
    ScaleResult.rejected new_dt
  else if new_dt > MAX_ALLOWED_TIMESTEP α then
    ScaleResult.ok (MAX_ALLOWED_TIMESTEP α)
  else if new_dt < MIN_ALLOWED_TIMESTEP α then
    ScaleResult.underflow
  else
    ScaleResult.ok new_dt

/-- Embeds `failed_timestep_scaling` (core/ode.py lines 856-860):
returns the fixed failure scaling factor, ignoring all inputs. -/
def failed_timestep_scaling {α : Type} [DivisionRing α]
    (_target_error _error_estimate : α) (_order : ℕ) : α :=
  TIMESTEP_FAILURE_DT_SCALING_FACTOR α

/-- Embeds `default_dt_scaling` (core/ode.py lines 842-853): the
scaling factor is `(target_error / error_estimate) ** (1/(1+order))`;
a `ZeroDivisionError` (division by an exactly zero error estimate) is
caught and the factor becomes `MAX_ALLOWED_DT_SCALING_FACTOR`.  Floats
are idealised as reals, `**` as the real power. -/
noncomputable def default_dt_scaling
    (target_error error_estimate : ℝ) (timestepper_order : ℕ) : ℝ :=
  if error_estimate = 0 then MAX_ALLOWED_DT_SCALING_FACTOR ℝ
  else (target_error / error_estimate) ^ ((1 : ℝ) / (1 + (timestepper_order : ℝ)))

-- ============================================================
-- Newton solver (core/ode.py lines 392-464).  Vectors are lists of
-- rationals, matrices lists of rows.
-- ============================================================

abbrev Vec := List ℚ

abbrev Mat := List (List ℚ)

/-- The two exceptions the Newton solver can raise:
`sp.optimize.nonlin.NoConvergence` (iteration cap exhausted) and
`scipy.linalg.LinAlgError` (singular matrix in the linear solve). -/
inductive NewtonError where
  | noConvergence
  | linAlgError
deriving DecidableEq

/-- `sp.amax(abs(r))` as used on line 440: the maximum absolute entry
(0 for the empty vector, which the source never passes). -/
def amax_abs (v : Vec) : ℚ :=
  v.foldr (fun x m => max |x| m) 0

/-- Elementwise vector subtraction (numpy `x0 - dx`, line 447). -/
def vsub (a b : Vec) : Vec :=
  List.zipWith (fun x y => x - y) a b

/-- Embeds `_newton` (core/ode.py lines 431-448).  The source first
tests `max_iter <= 0` and raises `NoConvergence`, and only then
evaluates the residual; with `max_iter` a natural number the test is
`max_iter = 0`.  The fallible linear solve is a function returning
`Except`; its error propagates (the source does not catch it here). -/
def _newton (residual : Vec → Vec) (jacobian_func : Vec → Mat) (newton_tol : ℚ)
    (solve_function : Mat → Vec → Except NewtonError Vec) :
    Vec → ℕ → Except NewtonError Vec
  | _, 0 => Except.error NewtonError.noConvergence
  | x0, max_iter + 1 =>
    let r := residual x0
    if amax_abs r < newton_tol then Except.ok x0
    else
      match solve_function (jacobian_func x0) r with
      | Except.error e => Except.error e
      | Except.ok dx =>
        _newton residual jacobian_func newton_tol solve_function (vsub x0 dx) max_iter

/-- Embeds `wrapped_solve` (core/ode.py lines 416-424): a system with
one degree of freedom is solved by the elementwise numpy division
`b/A[0][0]` with no singularity check whatsoever (a zero entry gives a
silent non-finite value in the source floats; in the rational
idealisation it gives the junk value 0 — in both cases no exception);
larger systems go to `solve_function`, whose `LinAlgError` is printed
and re-raised unchanged. -/
def wrapped_solve (solve_function : Mat → Vec → Except NewtonError Vec)
    (A : Mat) (b : Vec) : Except NewtonError Vec :=
  if b.length = 1 then
    Except.ok (b.map (fun x => x / ((A.headD []).headD 0)))
  else
    solve_function A b

/-- Embeds `finite_diff_jacobian` (core/ode.py lines 451-464): column
`i` is `(residual (x + eps·e_i) - residual x) / eps`.  Stored here in
row-major form as the list of columns of the source matrix; the claims
below never inspect entries, only whether a Jacobian is computed. -/
def finite_diff_jacobian (residual : Vec → Vec) (x : Vec) (eps : ℚ) : Mat :=
  (List.range x.length).map (fun i =>
    (vsub (residual (x.mapIdx (fun j a => if j = i then a + eps else a))) (residual x)).map
      (fun d => d / eps))

/-- Embeds `newton` (core/ode.py lines 392-428): resolves the optional
Jacobian to finite differencing, wraps the linear solve with the 1-DOF
special case, and calls `_newton`.  The default dense solve
(`sp.linalg.solve`) is an external collaborator and is passed in as
`solve_function`. -/
def newton (residual : Vec → Vec) (x0 : Vec)
    (jacobian_func : Option (Vec → Mat)) (newton_tol : ℚ)
    (solve_function : Mat → Vec → Except NewtonError Vec)
    (jacobian_fd_eps : ℚ) (max_iter : ℕ) : Except NewtonError Vec :=
  let jf := match jacobian_func with
    | some f => f
    | none => fun x => finite_diff_jacobian residual x jacobian_fd_eps
  _newton residual jf newton_tol (wrapped_solve solve_function) x0 max_iter

/-- One Newton update `x ← x - J⁻¹ r` for a total (never failing)
linear solve, used to state when `_newton` exhausts its cap. -/
def newtonStep (residual : Vec → Vec) (jacobian_func : Vec → Mat)
    (solveT : Mat → Vec → Vec) (x : Vec) : Vec :=
  vsub x (solveT (jacobian_func x) (residual x))

-- ============================================================
-- Integration loop (core/ode.py lines 219-306).  The loop is embedded
-- with the state type Y of the y-vectors left abstract.  The call
-- `newton(residual, ys[-1], ...)` on line 260 is a deterministic
-- function of the history and the proposed time, abstracted as the
-- oracle `solve`; likewise `time_adaptor` and `actions_after_timestep`
-- are parameters of `_odeint` in the source and are oracles here.
-- The `while` loop is given explicit fuel; exhausted fuel returns the
-- current trajectory exactly as reaching the horizon does, so every
-- theorem below is a partial-correctness statement about the states
-- the loop can actually reach.
-- ============================================================

/-- Outcome of the `newton` call on line 260: a solution, a raised
`NoConvergence`, or a raised `LinAlgError` (which `_odeint` does not
catch). -/
inductive SolveOutcome (Y : Type) where
  | ok (y : Y)
  | noConv
  | linAlgError
deriving DecidableEq

/-- Outcome of the `time_adaptor` call on line 289: a new step size, a
raised `FailedTimestepError` carrying the suggested step (caught on
line 293), or a raised `ConvergenceFailure` from `scale_timestep`
inside the adaptor (not caught: fatal). -/
inductive AdaptOutcome where
  | newDt (d : ℚ)
  | reject (d : ℚ)
  | fatal
deriving DecidableEq

/-- The fatal errors that can escape `_odeint`. -/
inductive OdeError where
  | noConvergence
  | linAlgError
  | stepUnderflow
  | failedTimestep
deriving DecidableEq

/-- The post-step adjustment (core/ode.py lines 278-284): the optional
`actions_after_timestep` callback receives the full speculative
history and returns the possibly adjusted `(new_t_np1, new_y_np1)`;
without a callback the solved pair is kept. -/
def postStep {Y : Type} (callback : Option (List ℚ → List Y → ℚ × Y))
    (ts : List ℚ) (ys : List Y) (t : ℚ) (y : Y) : ℚ × Y :=
  match callback with
  | some f => f (ts ++ [t]) (ys ++ [y])
  | none => (t, y)

/-- Embeds the main timestepping loop of `_odeint` (core/ode.py lines
242-306).  `solve ts ys t_np1` is the outcome of the Newton solve of
the step residual, `adaptor` the optional `time_adaptor`, `callback`
the optional `actions_after_timestep`, and `reduceStep` the
`newton_failure_reduce_step` flag.  On Newton failure with retry
permitted the source rescales `dt` through `scale_timestep` with
`failed_timestep_scaling` and retries the same interval; an
uncaught exception becomes an `Except.error`.  The `vary_step`
branch (dead under its default `False`) is not modelled. -/
def odeintLoop {Y : Type} (solve : List ℚ → List Y → ℚ → SolveOutcome Y)
    (adaptor : Option (List ℚ → List Y → AdaptOutcome))
    (callback : Option (List ℚ → List Y → ℚ × Y))
    (reduceStep : Bool) (tmax : ℚ) :
    ℕ → List ℚ → List Y → ℚ → Except OdeError (List ℚ × List Y)
  | 0, ts, ys, _ => Except.ok (ts, ys)
  | n + 1, ts, ys, dt =>
    if ts.getLastD 0 < tmax then
      match solve ts ys (ts.getLastD 0 + dt) with
      | SolveOutcome.linAlgError => Except.error OdeError.linAlgError
      | SolveOutcome.noConv =>
        if adaptor.isSome || reduceStep then
          match scale_timestep dt (failed_timestep_scaling 0 0 0) true with
          | ScaleResult.ok d =>
            odeintLoop solve adaptor callback reduceStep tmax n ts ys d
          | ScaleResult.rejected _ => Except.error OdeError.failedTimestep
          | ScaleResult.underflow => Except.error OdeError.stepUnderflow
        else Except.error OdeError.noConvergence
      | SolveOutcome.ok y =>
        match adaptor with
        | some f =>
          match f (ts ++ [(postStep callback ts ys (ts.getLastD 0 + dt) y).1])
              (ys ++ [(postStep callback ts ys (ts.getLastD 0 + dt) y).2]) with
          | AdaptOutcome.fatal => Except.error OdeError.stepUnderflow
          | AdaptOutcome.reject d =>
            odeintLoop solve adaptor callback reduceStep tmax n ts ys d
          | AdaptOutcome.newDt d =>
            odeintLoop solve adaptor callback reduceStep tmax n
              (ts ++ [(postStep callback ts ys (ts.getLastD 0 + dt) y).1])
              (ys ++ [(postStep callback ts ys (ts.getLastD 0 + dt) y).2]) d
        | none =>
          odeintLoop solve adaptor callback reduceStep tmax n
            (ts ++ [(postStep callback ts ys (ts.getLastD 0 + dt) y).1])
            (ys ++ [(postStep callback ts ys (ts.getLastD 0 + dt) y).2]) dt
    else Except.ok (ts, ys)

/-- Embeds the setup done by `odeint` (core/ode.py lines 200-216)
followed by the initialisation branch of `_odeint` (lines 230-234):
the seed trajectory is `ts = [0.0]`, `ys = [sp.array(y0, ndmin=1)]`
(here `y0` already denotes that converted 1-dimensional array), the
optional `initialisation_actions` (an `_odeint`-based bootstrap in the
source, an oracle here) may extend it, then the main loop runs. -/
def odeintEmbed {Y : Type} (solve : List ℚ → List Y → ℚ → SolveOutcome Y)
    (adaptor : Option (List ℚ → List Y → AdaptOutcome))
    (callback : Option (List ℚ → List Y → ℚ × Y))
    (reduceStep : Bool)
    (init : Option (List ℚ → List Y → Except OdeError (List ℚ × List Y)))
    (tmax dt : ℚ) (fuel : ℕ) (y0 : Y) : Except OdeError (List ℚ × List Y) :=
  let ts : List ℚ := [0]
  let ys : List Y := [y0]
  match init with
  | none => odeintLoop solve adaptor callback reduceStep tmax fuel ts ys dt
  | some f =>
    match f ts ys with
    | Except.error e => Except.error e
    | Except.ok (ts2, ys2) =>
      odeintLoop solve adaptor callback reduceStep tmax fuel ts2 ys2 dt

-- ============================================================
-- Scheme factory (core/ode.py lines 68-166).
-- ============================================================

/-- A user-supplied exact-derivative function `dydt_func(t, y)`. -/
abbrev DydtFun := ℚ → ℚ → ℚ

/-- The method argument of `_timestep_scheme_factory`: either a bare
name (all other fields absent) or a dict with the name plus auxiliary
parameters.  The two-predictor parameters of the external
`simpleode.algebra.two_predictor` module are modelled from the spec as
point sets and predictor names. -/
structure MethodDict where
  label : String
  dydt_func : Option DydtFun
  p1_points : Option (List ℚ)
  p1_pred : Option String
  p2_points : Option (List ℚ)
  p2_pred : Option String
  symbolic : Option Bool

/-- The time-residual component of the factory triple, identifying the
returned residual function. -/
inductive ResidualKind where
  | bdf1
  | bdf2
  | bdf3
  | imr
  | trapezoid
deriving DecidableEq

/-- The LTE estimator a `general_time_adaptor` partial application is
built from. -/
inductive LteKind where
  | bdf2_mp
  | ebdf3 (dydt_func : Option DydtFun)
  | tr_ab (dydt_func : Option DydtFun)
  | two_predictor (p1_points : List ℚ) (p1_pred : String)
      (p2_points : List ℚ) (p2_pred : String) (symbolic : Bool)

/-- A `par(general_time_adaptor, lte_calculator=..., method_order=...)`
partial application. -/
structure AdaptorSpec where
  lte_calculator : LteKind
  method_order : ℕ

/-- The triple returned by `_timestep_scheme_factory`: residual,
optional adaptor, optional initialisation (a
`par(higher_order_start, n)` recorded by its point count `n`). -/
structure Scheme where
  time_residual : ResidualKind
  time_adaptor : Option AdaptorSpec
  initialisation_actions : Option ℕ

/-- The exceptions the factory can raise: the explicit `ValueError`
for an unknown label (line 166), and a `KeyError` from a mandatory
`_method_dict[...]` lookup (lines 126-132). -/
inductive FactoryError where
  | valueError (msg : String)
  | keyError (key : String)
deriving DecidableEq

/-- `label.lower()` on line 88. -/
def strLower (s : String) : String :=
  ⟨s.data.map Char.toLower⟩

/-- Embeds `_timestep_scheme_factory` (core/ode.py lines 68-166).  A
bare string argument is the dict `{label := s}` with every other field
absent.  For the label `imr w18` the source reads five mandatory keys
in order (lines 126-132), so the first absent one raises `KeyError`;
the external two-predictor estimator generator is modelled from the
spec as succeeding on those parameters. -/
def _timestep_scheme_factory (m : MethodDict) : Except FactoryError Scheme :=
  let label := strLower m.label
  if label = "bdf2" then
    Except.ok ⟨ResidualKind.bdf2, none, some 2⟩
  else if label = "bdf3" then
    Except.ok ⟨ResidualKind.bdf3, none, some 3⟩
  else if label = "bdf2 mp" then
    Except.ok ⟨ResidualKind.bdf2, some ⟨LteKind.bdf2_mp, 2⟩, some 3⟩
  else if label = "bdf2 ebdf3" then
    Except.ok ⟨ResidualKind.bdf2, some ⟨LteKind.ebdf3 m.dydt_func, 2⟩, some 4⟩
  else if label = "bdf1" then
    Except.ok ⟨ResidualKind.bdf1, none, none⟩
  else if label = "imr" then
    Except.ok ⟨ResidualKind.imr, none, none⟩
  else if label = "imr ebdf3" then
    Except.ok ⟨ResidualKind.imr, some ⟨LteKind.ebdf3 m.dydt_func, 2⟩, some 5⟩
  else if label = "imr w18" then
    match m.p1_points with
    | none => Except.error (FactoryError.keyError "p1_points")
    | some p1 =>
      match m.p1_pred with
      | none => Except.error (FactoryError.keyError "p1_pred")
      | some q1 =>
        match m.p2_points with
        | none => Except.error (FactoryError.keyError "p2_points")
        | some p2 =>
          match m.p2_pred with
          | none => Except.error (FactoryError.keyError "p2_pred")
          | some q2 =>
            match m.symbolic with
            | none => Except.error (FactoryError.keyError "symbolic")
            | some s =>
              Except.ok ⟨ResidualKind.imr,
                some ⟨LteKind.two_predictor p1 q1 p2 q2 s, 2⟩, some 12⟩
  else if label = "trapezoid" ∨ label = "tr" then
    Except.ok ⟨ResidualKind.trapezoid, none, some 2⟩
  else if label = "tr ab" then
    Except.ok ⟨ResidualKind.trapezoid, some ⟨LteKind.tr_ab m.dydt_func, 2⟩, some 2⟩
  else
    Except.error (FactoryError.valueError
      ("Method " ++ label ++ " not recognised."))

/-- The closed set of labels the factory accepts (lower-cased). -/
def schemeNames : List String :=
  ["bdf2", "bdf3", "bdf2 mp", "bdf2 ebdf3", "bdf1", "imr", "imr ebdf3",
   "imr w18", "trapezoid", "tr", "tr ab"]

/-- A bare-name method argument: every auxiliary field absent. -/
def bareMethod (s : String) : MethodDict :=
  ⟨s, none, none, none, none, none, none⟩

/-- Embeds the setup phase of `odeint` (core/ode.py lines 200-211):
the factory is called first (line 201); only if it succeeds are the
seed lists `ts = [0.0]`, `ys = [sp.array(y0, ndmin=1)]` created and
handed to `_odeint`.  A factory exception therefore escapes before any
trajectory entry exists or any integration step is attempted. -/
def odeint_setup {Y : Type} (m : MethodDict) (y0 : Y) :
    Except FactoryError (Scheme × List ℚ × List Y) :=
  match _timestep_scheme_factory m with
  | Except.error e => Except.error e
  | Except.ok s => Except.ok (s, [0], [y0])

-- ============================================================
-- BDF2 derivative formula (core/ode.py lines 701-716).
-- ============================================================

/-- Python negative indexing `l[-1-i]` (with junk default 0 for the
out-of-range accesses the source never makes). -/
def back (l : List ℚ) (i : ℕ) : ℚ :=
  l.getD (l.length - 1 - i) 0

/-- Embeds `bdf2_dydt` (core/ode.py lines 701-716): the variable-step
BDF2 approximation of dy/dt at `ts[-1]`, in the oomph-lib rearranged
form used by the source. -/
def bdf2_dydt (ts ys : List ℚ) : ℚ :=
  let dt_n := back ts 0 - back ts 1
  let dt_nm1 := back ts 1 - back ts 2
  let y_np1 := back ys 0
  let y_n := back ys 1
  let y_nm1 := back ys 2
  ((1 / dt_n) + (1 / (dt_n + dt_nm1))) * y_np1
    - ((dt_n + dt_nm1) / (dt_n * dt_nm1)) * y_n
    + (dt_n / ((dt_n + dt_nm1) * dt_nm1)) * y_nm1

-- ============================================================
-- Helper lemmas.
-- ============================================================

theorem scale_timestep_ok_bounds {α : Type} [LinearOrderedField α]
    (dt sf : α) (flag : Bool) (d : α)
    (h : scale_timestep dt sf flag = ScaleResult.ok d) :
    MIN_ALLOWED_TIMESTEP α ≤ d ∧ d ≤ MAX_ALLOWED_TIMESTEP α := by
  simp only [scale_timestep, MIN_ALLOWED_TIMESTEP, MAX_ALLOWED_TIMESTEP,
    MIN_ALLOWED_DT_SCALING_FACTOR] at h ⊢
  split_ifs at h with h1 h2 h3
  · have hd : (100000000 : α) = d := by injection h
    subst hd
    constructor <;> norm_num
  · have hd : sf * dt = d := by injection h
    subst hd
    push_neg at h2 h3
    exact ⟨h3, h2⟩

theorem scale_timestep_ok_pos {α : Type} [LinearOrderedField α]
    (dt sf : α) (flag : Bool) (d : α)
    (h : scale_timestep dt sf flag = ScaleResult.ok d) : 0 < d := by
  have hb := (scale_timestep_ok_bounds dt sf flag d h).1
  have : (0 : α) < MIN_ALLOWED_TIMESTEP α := by
    simp only [MIN_ALLOWED_TIMESTEP]; norm_num
  linarith

theorem chain_append_step (ts : List ℚ) (dt : ℚ) (hdt : 0 < dt)
    (h : ts.Chain' (· < ·)) :
    (ts ++ [ts.getLastD 0 + dt]).Chain' (· < ·) := by
  rw [List.chain'_append]
  refine ⟨h, List.chain'_singleton _, ?_⟩
  intro x hx y hy
  simp only [List.head?_cons, Option.mem_def, Option.some.injEq] at hy
  subst hy
  have hx2 : ts.getLastD 0 = x := by
    rw [List.getLastD_eq_getLast? 0 ts]
    simp only [Option.mem_def] at hx
    rw [hx]
    rfl
  rw [hx2]
  linarith

theorem pfx_append_one {γ : Type} (l : List γ) (x : γ) : l <+: l ++ [x] :=
  ⟨[x], rfl⟩

/-- Partial-correctness invariant of the loop: whatever the oracles
do, a normal return only ever extends the incoming trajectory; no
committed entry is modified or removed. -/
theorem odeintLoop_extends {Y : Type} (solve : List ℚ → List Y → ℚ → SolveOutcome Y)
    (adaptor : Option (List ℚ → List Y → AdaptOutcome))
    (callback : Option (List ℚ → List Y → ℚ × Y))
    (reduceStep : Bool) (tmax : ℚ) :
    ∀ (n : ℕ) (ts : List ℚ) (ys : List Y) (dt : ℚ) (ts2 : List ℚ) (ys2 : List Y),
      odeintLoop solve adaptor callback reduceStep tmax n ts ys dt = Except.ok (ts2, ys2) →
      ts <+: ts2 ∧ ys <+: ys2 := by
  intro n
  induction n with
  | zero =>
    intro ts ys dt ts2 ys2 h
    simp only [odeintLoop, Except.ok.injEq, Prod.mk.injEq] at h
    obtain ⟨rfl, rfl⟩ := h
    exact ⟨List.prefix_rfl, List.prefix_rfl⟩
  | succ n ih =>
    intro ts ys dt ts2 ys2 h
    simp only [odeintLoop] at h
    split at h
    · split at h
      · exact absurd h (by simp)
      · split at h
        · split at h
          · exact ih _ _ _ _ _ h
          · exact absurd h (by simp)
          · exact absurd h (by simp)
        · exact absurd h (by simp)
      · split at h
        · split at h
          · exact absurd h (by simp)
          · exact ih _ _ _ _ _ h
          · obtain ⟨h1, h2⟩ := ih _ _ _ _ _ h
            exact ⟨(pfx_append_one _ _).trans h1, (pfx_append_one _ _).trans h2⟩
        · obtain ⟨h1, h2⟩ := ih _ _ _ _ _ h
          exact ⟨(pfx_append_one _ _).trans h1, (pfx_append_one _ _).trans h2⟩
    · simp only [Except.ok.injEq, Prod.mk.injEq] at h
      obtain ⟨rfl, rfl⟩ := h
      exact ⟨List.prefix_rfl, List.prefix_rfl⟩

/-- Partial-correctness invariant of the loop without a post-step
callback: as long as the current step and every step the adaptor hands
back are positive, a normal return has parallel lists (equal lengths)
and a strictly increasing time list. -/
theorem odeintLoop_len_chain {Y : Type} (solve : List ℚ → List Y → ℚ → SolveOutcome Y)
    (adaptor : Option (List ℚ → List Y → AdaptOutcome))
    (reduceStep : Bool) (tmax : ℚ)
    (hadapt : ∀ f, adaptor = some f → ∀ ts ys,
      (∀ d, f ts ys = AdaptOutcome.newDt d → 0 < d) ∧
      (∀ d, f ts ys = AdaptOutcome.reject d → 0 < d)) :
    ∀ (n : ℕ) (ts : List ℚ) (ys : List Y) (dt : ℚ) (ts2 : List ℚ) (ys2 : List Y),
      ts.length = ys.length → ts.Chain' (· < ·) → 0 < dt →
      odeintLoop solve adaptor none reduceStep tmax n ts ys dt = Except.ok (ts2, ys2) →
      ts2.length = ys2.length ∧ ts2.Chain' (· < ·) := by
  intro n
  induction n with
  | zero =>
    intro ts ys dt ts2 ys2 hlen hch hdt h
    simp only [odeintLoop, Except.ok.injEq, Prod.mk.injEq] at h
    obtain ⟨rfl, rfl⟩ := h
    exact ⟨hlen, hch⟩
  | succ n ih =>
    intro ts ys dt ts2 ys2 hlen hch hdt h
    simp only [odeintLoop, postStep] at h
    split at h
    · split at h
      · exact absurd h (by simp)
      · split at h
        · split at h
          next d heq =>
            exact ih _ _ _ _ _ hlen hch (scale_timestep_ok_pos _ _ _ _ heq) h
          next d heq => exact absurd h (by simp)
          next heq => exact absurd h (by simp)
        · exact absurd h (by simp)
      · split at h
        next f =>
          split at h
          next heq => exact absurd h (by simp)
          next d heq =>
            have hpos : 0 < d := (hadapt f rfl _ _).2 d heq
            exact ih _ _ _ _ _ hlen hch hpos h
          next d heq =>
            have hpos : 0 < d := (hadapt f rfl _ _).1 d heq
            refine ih _ _ _ _ _ ?_ ?_ hpos h
            · simp [hlen]
            · exact chain_append_step ts dt hdt hch
        next =>
          refine ih _ _ _ _ _ ?_ ?_ hdt h
          · simp [hlen]
          · exact chain_append_step ts dt hdt hch
    · simp only [Except.ok.injEq, Prod.mk.injEq] at h
      obtain ⟨rfl, rfl⟩ := h
      exact ⟨hlen, hch⟩

/-- With at least one iteration allowed, an initial guess already
within tolerance is returned unchanged, whatever the Jacobian and
linear-solve functions are (neither is consulted). -/
theorem newton_first_check_aux (residual : Vec → Vec) (newton_tol : ℚ) (x0 : Vec)
    (m : ℕ) (hm : 1 ≤ m) (hc : amax_abs (residual x0) < newton_tol)
    (jf : Vec → Mat) (sf : Mat → Vec → Except NewtonError Vec) :
    _newton residual jf newton_tol sf x0 m = Except.ok x0 := by
  cases m with
  | zero => exact absurd hm (by simp)
  | succ m =>
    rw [_newton]
    simp only [if_pos hc]

/-- For a total linear solve, `_newton` raises `NoConvergence` exactly
when none of the first `m` Newton iterates meets the tolerance. -/
theorem newton_exhaustion_aux (residual : Vec → Vec) (jacobian_func : Vec → Mat)
    (newton_tol : ℚ) (solveT : Mat → Vec → Vec) :
    ∀ (m : ℕ) (x0 : Vec),
      _newton residual jacobian_func newton_tol
          (fun A b => Except.ok (solveT A b)) x0 m
          = Except.error NewtonError.noConvergence
        ↔ ∀ k < m,
            ¬ amax_abs (residual
                ((newtonStep residual jacobian_func solveT)^[k] x0)) < newton_tol := by
  intro m
  induction m with
  | zero =>
    intro x0
    simp [_newton]
  | succ m ih =>
    intro x0
    rw [_newton]
    by_cases hc : amax_abs (residual x0) < newton_tol
    · simp only [if_pos hc]
      constructor
      · intro hcontra
        exact absurd hcontra (by simp)
      · intro hall
        exact absurd hc (by simpa using hall 0 (Nat.succ_pos m))
    · simp only [if_neg hc]
      rw [ih (vsub x0 (solveT (jacobian_func x0) (residual x0)))]
      constructor
      · intro hall k hk
        cases k with
        | zero => simpa using hc
        | succ k =>
          rw [Function.iterate_succ_apply]
          exact hall k (Nat.lt_of_succ_lt_succ hk)
      · intro hall k hk
        have h2 := hall (k + 1) (Nat.succ_lt_succ hk)
        rw [Function.iterate_succ_apply] at h2
        exact h2

-- ============================================================
-- Claim theorems.
-- ============================================================

/-- Claim C9: for every polynomial y(t) = a t^2 + b t + c of degree at
most 2 and every three strictly increasing times t0 < t1 < t2 with
arbitrary unequal spacing, the variable-step BDF2 derivative formula
`bdf2_dydt` applied to the exact values returns exactly the derivative
2 a t2 + b at the newest time, in exact rational arithmetic, with no
uniform-step assumption. -/
theorem c9_theorem (a b c t0 t1 t2 : ℚ) (h01 : t0 < t1) (h12 : t1 < t2) :
    bdf2_dydt [t0, t1, t2]
        [a * t0 ^ 2 + b * t0 + c, a * t1 ^ 2 + b * t1 + c, a * t2 ^ 2 + b * t2 + c]
      = 2 * a * t2 + b := by
  have hn : t2 - t1 ≠ 0 := sub_ne_zero.mpr (ne_of_gt h12)
  have hm : t1 - t0 ≠ 0 := sub_ne_zero.mpr (ne_of_gt h01)
  have hs : t2 - t0 ≠ 0 := sub_ne_zero.mpr (ne_of_gt (lt_trans h01 h12))
  have e0 : back [t0, t1, t2] 0 = t2 := rfl
  have e1 : back [t0, t1, t2] 1 = t1 := rfl
  have e2 : back [t0, t1, t2] 2 = t0 := rfl
  have f0 : back [a * t0 ^ 2 + b * t0 + c, a * t1 ^ 2 + b * t1 + c,
      a * t2 ^ 2 + b * t2 + c] 0 = a * t2 ^ 2 + b * t2 + c := rfl
  have f1 : back [a * t0 ^ 2 + b * t0 + c, a * t1 ^ 2 + b * t1 + c,
      a * t2 ^ 2 + b * t2 + c] 1 = a * t1 ^ 2 + b * t1 + c := rfl
  have f2 : back [a * t0 ^ 2 + b * t0 + c, a * t1 ^ 2 + b * t1 + c,
      a * t2 ^ 2 + b * t2 + c] 2 = a * t0 ^ 2 + b * t0 + c := rfl
  simp only [bdf2_dydt, e0, e1, e2, f0, f1, f2]
  rw [show t2 - t1 + (t1 - t0) = t2 - t0 from by ring]
  field_simp
  ring

/-- Witness for C9: the parabola y = t^2 on times 0 < 1 < 3 (unequal
steps 1 and 2) gives exactly dy/dt = 6 at t = 3. -/
theorem c9_witness :
    bdf2_dydt [0, 1, 3]
        [1 * 0 ^ 2 + 0 * 0 + 0, 1 * 1 ^ 2 + 0 * 1 + 0, 1 * 3 ^ 2 + 0 * 3 + 0]
      = 2 * 1 * 3 + 0 :=
  c9_theorem 1 0 0 0 1 3 (by norm_num) (by norm_num)

/-- Evaluating the real power used by `default_dt_scaling`: for a
nonnegative base written as a square, the exponent 1/2 inverts it. -/
theorem rpow_half_of_sq (x : ℝ) (hx : 0 ≤ x) :
    ((x ^ (2 : ℕ) : ℝ) ^ ((1 : ℝ) / 2)) = x := by
  rw [← Real.rpow_natCast x 2, ← Real.rpow_mul hx]
  norm_num

/-- `default_dt_scaling` at target 16, error 1, order 1: the factor is
16^(1/2) = 4, strictly above the 3.0 cap. -/
theorem default_dt_scaling_sixteen : default_dt_scaling 16 1 1 = 4 := by
  rw [default_dt_scaling, if_neg (by norm_num : (1 : ℝ) ≠ 0)]
  have hb : (16 : ℝ) / 1 = (4 : ℝ) ^ (2 : ℕ) := by norm_num
  have he : (1 : ℝ) / (1 + ((1 : ℕ) : ℝ)) = 1 / 2 := by norm_num
  rw [hb, he]
  exact rpow_half_of_sq 4 (by norm_num)

/-- `default_dt_scaling` at target 1, error 16, order 1: the factor is
(1/16)^(1/2) = 1/4, below the rejection threshold 0.75. -/
theorem default_dt_scaling_sixteenth : default_dt_scaling 1 16 1 = 1 / 4 := by
  rw [default_dt_scaling, if_neg (by norm_num : (16 : ℝ) ≠ 0)]
  have hb : (1 : ℝ) / 16 = ((1 : ℝ) / 4) ^ (2 : ℕ) := by norm_num
  have he : (1 : ℝ) / (1 + ((1 : ℕ) : ℝ)) = 1 / 2 := by norm_num
  rw [hb, he]
  exact rpow_half_of_sq (1 / 4) (by norm_num)

/-- Claim C3 is right about the intent but the code violates it (a code
bug): at dt = 1, target error 16, error norm 1, order 1, the
error-based factor is 4 > MAX_SCALE = 3, the clamp on line 894 rebinds
a dead variable, and the controller returns 4·dt, exceeding the
claimed 3·dt cap.  This theorem evaluates the embedded code at that
failing input. -/
theorem c3_theorem :
    scale_timestep (1 : ℝ) (default_dt_scaling 16 1 1) false = ScaleResult.ok 4
    ∧ MAX_ALLOWED_DT_SCALING_FACTOR ℝ * 1 < 4 := by
  constructor
  · rw [default_dt_scaling_sixteen]
    norm_num [scale_timestep, MIN_ALLOWED_DT_SCALING_FACTOR,
      MAX_ALLOWED_TIMESTEP, MIN_ALLOWED_TIMESTEP]
  · norm_num [MAX_ALLOWED_DT_SCALING_FACTOR]

/-- Counterexample to claim C2: on the step-rejection path the
controller does not raise the underflow error and does not clamp: with
dt already at the minimum 1e-8 and the error-based factor 1/4
(target 1, error norm 16, order 1), it raises `FailedTimestepError`
carrying new_dt = 2.5e-9, strictly below the minimum - the step the
integration loop then adopts. -/
theorem c2_counterexample :
    scale_timestep (MIN_ALLOWED_TIMESTEP ℝ) (default_dt_scaling 1 16 1) false
        = ScaleResult.rejected (1 / 400000000)
    ∧ (1 / 400000000 : ℝ) < MIN_ALLOWED_TIMESTEP ℝ := by
  rw [default_dt_scaling_sixteenth]
  constructor
  · norm_num [scale_timestep, MIN_ALLOWED_DT_SCALING_FACTOR,
      MAX_ALLOWED_TIMESTEP, MIN_ALLOWED_TIMESTEP]
  · norm_num [MIN_ALLOWED_TIMESTEP]

/-- Claim C2 (amended): every NORMAL return of `scale_timestep` lies
within [1e-8, 1e8], and off the rejection path a new step below the
minimum raises the fatal underflow error; but on the step-rejection
path the `FailedTimestepError` carries the unclamped product
`scaling_factor * dt`, which may lie below 1e-8 and which the
integration loop adopts as the next dt. -/
theorem c2_theorem (dt sf : ℚ) (flag : Bool) :
    (∀ d, scale_timestep dt sf flag = ScaleResult.ok d →
        MIN_ALLOWED_TIMESTEP ℚ ≤ d ∧ d ≤ MAX_ALLOWED_TIMESTEP ℚ)
    ∧ (¬(sf < MIN_ALLOWED_DT_SCALING_FACTOR ℚ ∧ flag = false) →
        sf * dt < MIN_ALLOWED_TIMESTEP ℚ →
        scale_timestep dt sf flag = ScaleResult.underflow)
    ∧ (sf < MIN_ALLOWED_DT_SCALING_FACTOR ℚ →
        scale_timestep dt sf false = ScaleResult.rejected (sf * dt)) := by
  refine ⟨fun d h => scale_timestep_ok_bounds dt sf flag d h, ?_, ?_⟩
  · intro h1 h2
    have hmax : ¬ sf * dt > MAX_ALLOWED_TIMESTEP ℚ := by
      simp only [MIN_ALLOWED_TIMESTEP, MAX_ALLOWED_TIMESTEP] at h2 ⊢
      push_neg
      nlinarith
    simp only [scale_timestep]
    rw [if_neg h1, if_neg hmax, if_pos h2]
  · intro h1
    simp only [scale_timestep]
    rw [if_pos]
    exact ⟨h1, by simp⟩

/-- Witness for C2 (amended), at dt = 1, factor 1: the controller
returns 1, inside [1e-8, 1e8]. -/
theorem c2_witness :
    MIN_ALLOWED_TIMESTEP ℚ ≤ 1 ∧ (1 : ℚ) ≤ MAX_ALLOWED_TIMESTEP ℚ :=
  (c2_theorem 1 1 false).1 1
    (by norm_num [scale_timestep, MIN_ALLOWED_DT_SCALING_FACTOR,
      MAX_ALLOWED_TIMESTEP, MIN_ALLOWED_TIMESTEP])

/-- Counterexample to claim C4: with iteration cap 0 the solver raises
`NoConvergence` immediately, even though the initial guess [0] for the
residual G(x) = x already satisfies max(|G(x0)|) = 0 < tol = 1; the
claimed convergence check is NOT performed first for every cap. -/
theorem c4_counterexample :
    amax_abs ((fun (v : Vec) => v) [0]) < 1
    ∧ _newton (fun v => v) (fun _ => [[1]]) 1 (fun _ b => Except.ok b) [0] 0
        = Except.error NewtonError.noConvergence := by
  constructor
  · norm_num [amax_abs]
  · rfl

/-- Claim C4 (amended to caps of at least one iteration, which the
source checks before anything else): the solver first checks
max(|G(x0)|) < tol and, if satisfied, returns x0 unchanged with no
Jacobian evaluation or linear solve (the result does not depend on
either function); and with a total linear solve it raises
`NoConvergence` exactly when none of the first `m` Newton iterates
meets the tolerance. -/
theorem c4_theorem (residual : Vec → Vec) (jacobian_func : Vec → Mat)
    (newton_tol : ℚ) (solveT : Mat → Vec → Vec) (x0 : Vec) (m : ℕ) (hm : 1 ≤ m) :
    (amax_abs (residual x0) < newton_tol →
      ∀ (jf : Vec → Mat) (sf : Mat → Vec → Except NewtonError Vec),
        _newton residual jf newton_tol sf x0 m = Except.ok x0)
    ∧ (_newton residual jacobian_func newton_tol
          (fun A b => Except.ok (solveT A b)) x0 m
          = Except.error NewtonError.noConvergence
        ↔ ∀ k < m,
            ¬ amax_abs (residual
                ((newtonStep residual jacobian_func solveT)^[k] x0)) < newton_tol) :=
  ⟨fun hc jf sf => newton_first_check_aux residual newton_tol x0 m hm hc jf sf,
   newton_exhaustion_aux residual jacobian_func newton_tol solveT m x0⟩

/-- Witness for C4 at residual G(x) = x, x0 = [0], tol = 1, cap 1: the
already-converged guess is returned unchanged. -/
theorem c4_witness :
    _newton (fun v => v) (fun _ => [[1]]) 1 (fun _ b => Except.ok b) [0] 1
      = Except.ok [0] :=
  (c4_theorem (fun v => v) (fun _ => [[1]]) 1 (fun _ b => b) [0] 1 (by norm_num)).1
    (by norm_num [amax_abs]) (fun _ => [[1]]) (fun _ b => Except.ok b)

/-- Counterexample to claim C5: for a 1-DOF system with Jacobian entry
exactly 0, `wrapped_solve` performs the division with no singularity
check and returns normally (isOk) instead of producing the claimed
distinguishable singular-Jacobian failure - even when the underlying
solve function would have reported `LinAlgError`. -/
theorem c5_counterexample :
    (wrapped_solve (fun _ _ => Except.error NewtonError.linAlgError)
        [[(0 : ℚ)]] [1]).isOk = true := rfl

/-- Claim C5 (amended): for systems of size other than one the wrapped
solve defers to the dense solve function, so its `LinAlgError`
propagates through `_newton` unchanged and is distinguishable from
`NoConvergence`; but for a 1-DOF system the scalar division is
performed with no singularity check, so a zero Jacobian entry never
produces a failure (in the source floats it produces a silent
non-finite update). -/
theorem c5_theorem (sf : Mat → Vec → Except NewtonError Vec) (A : Mat) (b : Vec)
    (residual : Vec → Vec) (jf : Vec → Mat) (newton_tol : ℚ) (x0 : Vec) (m : ℕ) :
    (b.length ≠ 1 → wrapped_solve sf A b = sf A b)
    ∧ (b.length = 1 → (wrapped_solve sf A b).isOk = true)
    ∧ NewtonError.linAlgError ≠ NewtonError.noConvergence
    ∧ (¬ amax_abs (residual x0) < newton_tol →
        sf (jf x0) (residual x0) = Except.error NewtonError.linAlgError →
        _newton residual jf newton_tol sf x0 (m + 1)
          = Except.error NewtonError.linAlgError) := by
  refine ⟨?_, ?_, by simp, ?_⟩
  · intro h
    rw [wrapped_solve, if_neg h]
  · intro h
    rw [wrapped_solve, if_pos h]
    rfl
  · intro h1 h2
    rw [_newton]
    rw [if_neg h1, h2]

/-- Witness for C5 on the 2-DOF identity system: the wrapped solve
defers to the dense solve function, whose singular failure surfaces. -/
theorem c5_witness :
    wrapped_solve (fun _ _ => Except.error NewtonError.linAlgError)
        [[(1 : ℚ), 0], [0, 1]] [1, 2]
      = Except.error NewtonError.linAlgError :=
  (c5_theorem (fun _ _ => Except.error NewtonError.linAlgError)
      [[(1 : ℚ), 0], [0, 1]] [1, 2] (fun v => v) (fun _ => [[1]]) 1 [0] 0).1
    (by norm_num)

/-- Claim C6: whenever the Newton solve of a step fails to converge and
retry is permitted (adaptive mode or the newton_failure_reduce_step
override), the loop retries the same interval with the step multiplied
by exactly the fixed factor 0.5: `failed_timestep_scaling` returns 1/2
whatever its inputs (independent of any error estimate), the rescale
through `scale_timestep` can never signal a step rejection (the
factor-too-small test is bypassed for failure retries), and the loop
continues on the same (ts, ys) with dt/2. -/
theorem c6_theorem {Y : Type} (solve : List ℚ → List Y → ℚ → SolveOutcome Y)
    (adaptor : Option (List ℚ → List Y → AdaptOutcome))
    (callback : Option (List ℚ → List Y → ℚ × Y))
    (reduceStep : Bool) (tmax : ℚ) (n : ℕ) (ts : List ℚ) (ys : List Y)
    (dt a b a2 b2 : ℚ) (o o2 : ℕ)
    (hretry : (adaptor.isSome || reduceStep) = true)
    (hlt : ts.getLastD 0 < tmax)
    (hsolve : solve ts ys (ts.getLastD 0 + dt) = SolveOutcome.noConv)
    (hmax : dt ≤ MAX_ALLOWED_TIMESTEP ℚ)
    (hmin : MIN_ALLOWED_TIMESTEP ℚ ≤ 1 / 2 * dt) :
    (failed_timestep_scaling a b o = failed_timestep_scaling a2 b2 o2
      ∧ failed_timestep_scaling a b o = (1 / 2 : ℚ))
    ∧ (∀ (t e : ℚ) (o3 : ℕ) (d : ℚ),
        scale_timestep dt (failed_timestep_scaling t e o3) true
          ≠ ScaleResult.rejected d)
    ∧ scale_timestep dt (failed_timestep_scaling 0 0 0) true
        = ScaleResult.ok (1 / 2 * dt)
    ∧ odeintLoop solve adaptor callback reduceStep tmax (n + 1) ts ys dt
        = odeintLoop solve adaptor callback reduceStep tmax n ts ys (1 / 2 * dt) := by
  have hval : failed_timestep_scaling (α := ℚ) 0 0 0 = 1 / 2 := by
    norm_num [failed_timestep_scaling, TIMESTEP_FAILURE_DT_SCALING_FACTOR]
  have hnotmax : ¬ (1 / 2 * dt > MAX_ALLOWED_TIMESTEP ℚ) := by
    simp only [MAX_ALLOWED_TIMESTEP] at hmax ⊢
    push_neg
    linarith
  have hnotmin : ¬ (1 / 2 * dt < MIN_ALLOWED_TIMESTEP ℚ) := by
    push_neg
    exact hmin
  have hsc : scale_timestep dt (failed_timestep_scaling 0 0 0) true
      = ScaleResult.ok (1 / 2 * dt) := by
    rw [show failed_timestep_scaling (α := ℚ) 0 0 0 = 1 / 2 from hval]
    simp only [scale_timestep]
    rw [if_neg (by simp), if_neg hnotmax, if_neg hnotmin]
  refine ⟨⟨rfl, by norm_num [failed_timestep_scaling,
      TIMESTEP_FAILURE_DT_SCALING_FACTOR]⟩, ?_, hsc, ?_⟩
  · intro t e o3 d hcontra
    rw [show failed_timestep_scaling (α := ℚ) t e o3 = 1 / 2 from by
        norm_num [failed_timestep_scaling, TIMESTEP_FAILURE_DT_SCALING_FACTOR]] at hcontra
    simp only [scale_timestep] at hcontra
    rw [if_neg (by simp)] at hcontra
    split_ifs at hcontra
  · conv_lhs => rw [odeintLoop]
    rw [if_pos hlt, hsolve, hretry]
    simp only [hsc]
    simp

/-- Witness for C6 at dt = 1 (adaptor absent, override enabled): the
failure rescale returns exactly half the step and is not a rejection. -/
theorem c6_witness :
    scale_timestep (1 : ℚ) (failed_timestep_scaling 0 0 0) true
      = ScaleResult.ok (1 / 2 * 1) :=
  (c6_theorem (Y := ℚ) (fun _ _ _ => SolveOutcome.noConv) none none true 1 0 [0] [0]
      1 0 0 0 0 0 0 rfl (by simp [List.getLastD]) rfl
      (by norm_num [MAX_ALLOWED_TIMESTEP])
      (by norm_num [MIN_ALLOWED_TIMESTEP])).2.2.1

/-- Counterexample to claim C1: a run that ends in the fatal
Newton-non-convergence error (non-adaptive mode) returns the bare
exception, not the (times, values) trajectory committed up to that
point: the committed seed ([0], [0]) is lost to the caller. -/
theorem c1_counterexample :
    odeintLoop (Y := ℚ) (fun _ _ _ => SolveOutcome.noConv) none none false 1 1 [0] [0] 2
        = Except.error OdeError.noConvergence
    ∧ (odeintLoop (Y := ℚ) (fun _ _ _ => SolveOutcome.noConv) none none false 1 1
        [0] [0] 2).isOk = false :=
  ⟨rfl, rfl⟩

/-- Claim C1 (amended): a fatal error (Newton non-convergence in
non-adaptive mode, a singular-Jacobian linear-solve failure, or
step-size underflow on the failure-retry rescale) propagates out of
the integration loop as a raised exception carrying no trajectory; the
committed (times, values) lists are returned only on normal
termination, so partial progress IS lost on a fatal error. -/
theorem c1_theorem {Y : Type} (solve : List ℚ → List Y → ℚ → SolveOutcome Y)
    (adaptor : Option (List ℚ → List Y → AdaptOutcome))
    (callback : Option (List ℚ → List Y → ℚ × Y))
    (reduceStep : Bool) (tmax : ℚ) (n : ℕ) (ts : List ℚ) (ys : List Y) (dt : ℚ)
    (hlt : ts.getLastD 0 < tmax) :
    (solve ts ys (ts.getLastD 0 + dt) = SolveOutcome.noConv →
      adaptor = none → reduceStep = false →
      odeintLoop solve adaptor callback reduceStep tmax (n + 1) ts ys dt
        = Except.error OdeError.noConvergence)
    ∧ (solve ts ys (ts.getLastD 0 + dt) = SolveOutcome.noConv →
        (adaptor.isSome || reduceStep) = true →
        1 / 2 * dt < MIN_ALLOWED_TIMESTEP ℚ →
        odeintLoop solve adaptor callback reduceStep tmax (n + 1) ts ys dt
          = Except.error OdeError.stepUnderflow)
    ∧ (solve ts ys (ts.getLastD 0 + dt) = SolveOutcome.linAlgError →
        odeintLoop solve adaptor callback reduceStep tmax (n + 1) ts ys dt
          = Except.error OdeError.linAlgError) := by
  refine ⟨?_, ?_, ?_⟩
  · intro hs ha hr
    subst ha
    subst hr
    rw [odeintLoop, if_pos hlt, hs]
    simp
  · intro hs hr hunder
    have hnotmax : ¬ (1 / 2 * dt > MAX_ALLOWED_TIMESTEP ℚ) := by
      simp only [MIN_ALLOWED_TIMESTEP, MAX_ALLOWED_TIMESTEP] at hunder ⊢
      push_neg
      linarith
    have hsc : scale_timestep dt (failed_timestep_scaling 0 0 0) true
        = ScaleResult.underflow := by
      rw [show failed_timestep_scaling (α := ℚ) 0 0 0 = 1 / 2 from by
          norm_num [failed_timestep_scaling, TIMESTEP_FAILURE_DT_SCALING_FACTOR]]
      simp only [scale_timestep]
      rw [if_neg (by simp), if_neg hnotmax, if_pos hunder]
    rw [odeintLoop, if_pos hlt, hs, hr]
    simp [hsc]
  · intro hs
    rw [odeintLoop, if_pos hlt, hs]

/-- Witness for C1 at the non-adaptive Newton-failure path starting
from the seed trajectory ([0], [0]). -/
theorem c1_witness :
    odeintLoop (Y := ℚ) (fun _ _ _ => SolveOutcome.noConv) none none false 1 1 [0] [0] 1
      = Except.error OdeError.noConvergence :=
  (c1_theorem (fun _ _ _ => SolveOutcome.noConv) none none false 1 0 [0] [0] 1
      (by simp [List.getLastD])).1 rfl rfl rfl

/-- Claim C7: with no post-step adjustment callback and positive step
sizes (the current one and every one the adaptor hands back), a
normal return of the integration loop extends the committed trajectory
only by appending: the two lists keep equal length, the time list
stays strictly increasing, and every previously committed entry
survives unchanged as a prefix (a rejected or failed speculative step
is never committed). -/
theorem c7_theorem {Y : Type} (solve : List ℚ → List Y → ℚ → SolveOutcome Y)
    (adaptor : Option (List ℚ → List Y → AdaptOutcome)) (reduceStep : Bool)
    (tmax : ℚ) (n : ℕ) (ts ts2 : List ℚ) (ys ys2 : List Y) (dt : ℚ)
    (hlen : ts.length = ys.length) (hch : ts.Chain' (· < ·)) (hdt : 0 < dt)
    (hadapt : ∀ f, adaptor = some f → ∀ hts hys,
      (∀ d, f hts hys = AdaptOutcome.newDt d → 0 < d) ∧
      (∀ d, f hts hys = AdaptOutcome.reject d → 0 < d))
    (h : odeintLoop solve adaptor none reduceStep tmax n ts ys dt
        = Except.ok (ts2, ys2)) :
    ts2.length = ys2.length ∧ ts2.Chain' (· < ·) ∧ ts <+: ts2 ∧ ys <+: ys2 := by
  obtain ⟨h1, h2⟩ := odeintLoop_len_chain solve adaptor reduceStep tmax hadapt
    n ts ys dt ts2 ys2 hlen hch hdt h
  obtain ⟨h3, h4⟩ := odeintLoop_extends solve adaptor none reduceStep tmax
    n ts ys dt ts2 ys2 h
  exact ⟨h1, h2, h3, h4⟩

/-- Witness for C7: one committed step from the seed ([0], [5]). -/
theorem c7_witness :
    ([0, 1] : List ℚ).length = ([5, 0] : List ℚ).length
    ∧ ([0, 1] : List ℚ).Chain' (· < ·)
    ∧ [(0 : ℚ)] <+: [0, 1] ∧ [(5 : ℚ)] <+: [5, 0] :=
  c7_theorem (fun _ _ _ => SolveOutcome.ok 0) none false 1 2 [0] [0, 1] [5] [5, 0] 1
    rfl (by simp) (by norm_num) (fun _ hf => nomatch hf)
    (by norm_num [odeintLoop, postStep, List.getLastD])

/-- A list with the single-element list [x] as a prefix starts with x. -/
theorem head_of_single_pfx {γ : Type} (x : γ) (l : List γ) (h : [x] <+: l) :
    l.head? = some x := by
  obtain ⟨t, ht⟩ := h
  rw [← ht]
  rfl

/-- Claim C10: every call to the public entry point starts integration
at time exactly 0.0 (the interface provides no way to choose another
initial time): whenever the call returns a trajectory, its time list
starts with 0 and its value list starts with the supplied initial
value (already converted to a 1-dimensional array), for any
initialisation bootstrap that only appends to the seed trajectory, as
`higher_order_start` does. -/
theorem c10_theorem {Y : Type} (solve : List ℚ → List Y → ℚ → SolveOutcome Y)
    (adaptor : Option (List ℚ → List Y → AdaptOutcome))
    (callback : Option (List ℚ → List Y → ℚ × Y)) (reduceStep : Bool)
    (init : Option (List ℚ → List Y → Except OdeError (List ℚ × List Y)))
    (tmax dt : ℚ) (fuel : ℕ) (y0 : Y) (ts2 : List ℚ) (ys2 : List Y)
    (hinit : ∀ f, init = some f → ∀ hts hys hts2 hys2,
        f hts hys = Except.ok (hts2, hys2) → hts <+: hts2 ∧ hys <+: hys2)
    (h : odeintEmbed solve adaptor callback reduceStep init tmax dt fuel y0
        = Except.ok (ts2, ys2)) :
    ts2.head? = some 0 ∧ ys2.head? = some y0 := by
  cases init with
  | none =>
    simp only [odeintEmbed] at h
    obtain ⟨h1, h2⟩ := odeintLoop_extends solve adaptor callback reduceStep tmax
      fuel [0] [y0] dt ts2 ys2 h
    exact ⟨head_of_single_pfx 0 ts2 h1, head_of_single_pfx y0 ys2 h2⟩
  | some f =>
    simp only [odeintEmbed] at h
    cases hf : f [0] [y0] with
    | error e =>
      rw [hf] at h
      exact absurd h (by simp)
    | ok p =>
      obtain ⟨ts3, ys3⟩ := p
      rw [hf] at h
      obtain ⟨h1, h2⟩ := hinit f rfl [0] [y0] ts3 ys3 hf
      obtain ⟨h3, h4⟩ := odeintLoop_extends solve adaptor callback reduceStep tmax
        fuel ts3 ys3 dt ts2 ys2 h
      exact ⟨head_of_single_pfx 0 ts2 (h1.trans h3),
        head_of_single_pfx y0 ys2 (h2.trans h4)⟩

/-- Witness for C10: a degenerate run (horizon 0) returns the seed
trajectory, starting at time 0 with the supplied initial value 5. -/
theorem c10_witness :
    ([(0 : ℚ)] : List ℚ).head? = some 0 ∧ [(5 : ℚ)].head? = some 5 :=
  c10_theorem (fun _ _ _ => SolveOutcome.ok 0) none none false none 0 1 0 5 [0] [5]
    (fun _ hf => nomatch hf) rfl

/-- Counterexample to claim C8: the name `imr w18` IS in the closed set
of supported names, yet constructing the scheme from the bare name
fails (the source reads the mandatory key `p1_points` from the method
dict, raising `KeyError`), so construction does not succeed for every
name in the set. -/
theorem c8_counterexample :
    _timestep_scheme_factory (bareMethod "imr w18")
      = Except.error (FactoryError.keyError "p1_points") := rfl

/-- Claim C8 (amended): every supported name other than `imr w18`
yields its residual/adaptor/initialisation triple from the bare name,
and `imr w18` yields one once its predictor parameters are supplied
(missing ones raise a missing-key error, still at setup); every name
outside the closed set raises the `ValueError` configuration error,
and it does so inside the setup phase of `odeint`, before the seed
trajectory exists or any integration step is attempted. -/
theorem c8_theorem (m : MethodDict) (pp : List ℚ) (pr : String) (sb : Bool) :
    (∀ s, s ∈ ["bdf2", "bdf3", "bdf2 mp", "bdf2 ebdf3", "bdf1", "imr",
        "imr ebdf3", "trapezoid", "tr", "tr ab"] →
      (_timestep_scheme_factory (bareMethod s)).isOk = true)
    ∧ (_timestep_scheme_factory
        ⟨"imr w18", none, some pp, some pr, some pp, some pr, some sb⟩).isOk = true
    ∧ (strLower m.label ∉ schemeNames →
        _timestep_scheme_factory m
          = Except.error (FactoryError.valueError
              ("Method " ++ strLower m.label ++ " not recognised.")))
    ∧ (strLower m.label ∉ schemeNames →
        odeint_setup (Y := ℚ) m 0
          = Except.error (FactoryError.valueError
              ("Method " ++ strLower m.label ++ " not recognised."))) := by
  have hval : ∀ mm : MethodDict, strLower mm.label ∉ schemeNames →
      _timestep_scheme_factory mm
        = Except.error (FactoryError.valueError
            ("Method " ++ strLower mm.label ++ " not recognised.")) := by
    intro mm hnot
    simp only [schemeNames, List.mem_cons, List.not_mem_nil, or_false, not_or] at hnot
    obtain ⟨h1, h2, h3, h4, h5, h6, h7, h8, h9, h10, h11⟩ := hnot
    simp only [_timestep_scheme_factory]
    rw [if_neg h1, if_neg h2, if_neg h3, if_neg h4, if_neg h5, if_neg h6,
      if_neg h7, if_neg h8, if_neg (not_or.mpr ⟨h9, h10⟩), if_neg h11]
  refine ⟨?_, rfl, hval m, ?_⟩
  · decide
  · intro hnot
    simp only [odeint_setup, hval m hnot]

/-- Witness for C8: the name `bdf2`, from the closed set, constructs
successfully. -/
theorem c8_witness :
    (_timestep_scheme_factory (bareMethod "bdf2")).isOk = true :=
  (c8_theorem (bareMethod "bdf2") [] "p" true).1 "bdf2" (by decide)
